import Mathlib

/-!
Shallow embedding of the `topbid` package (files `src/topbid/orderbook.py` and
`src/topbid/scheduler.py`) and proofs about the claims of its specification.

Parsed JSON response bodies are modelled by `JVal`; Python runtime failures by
`PyErr`; the mutable `OrderBook` object by a record of association lists that is
threaded explicitly.  Stateful methods that can raise return the state reached
at the moment of the raise together with the pending exception, mirroring the
fact that a Python exception leaves earlier mutations of `self` in place.
-/

set_option autoImplicit false

namespace Topbid

/-- A parsed JSON value, as returned by the HTTP layer (`parse_json=True`).
Python `float` results written back into the store are represented by `num`,
so `JVal` doubles as the type of values held in the bid/ask tables. -/
inductive JVal where
  | null
  | bool (b : Bool)
  | num (q : ℚ)
  | str (s : String)
  | arr (xs : List JVal)
  | obj (fields : List (String × JVal))

/-- Python runtime exceptions that the embedded code can raise. -/
inductive PyErr where
  | typeError
  | keyError
  | indexError
  | valueError
  | stopIteration
  | requestError
  | runtimeError (msg : String)
deriving DecidableEq, Repr

mutual

/-- Python `==` on JSON-shaped values.  Numbers compare by value (ints and
floats are both `num`), `True`/`False` compare equal to `1`/`0` as in Python,
different scalar types compare unequal.  Dict comparison is modelled
order-sensitively; the source only ever compares against scalar literals, so
this case is never exercised. -/
def pyEq : JVal → JVal → Bool
  | .null, .null => true
  | .bool x, .bool y => x == y
  | .bool x, .num q => (if x then (1 : ℚ) else 0) == q
  | .num q, .bool x => q == (if x then (1 : ℚ) else 0)
  | .num p, .num q => p == q
  | .str s, .str t => s == t
  | .arr xs, .arr ys => pyEqList xs ys
  | .obj fs, .obj gs => pyEqFields fs gs
  | _, _ => false

def pyEqList : List JVal → List JVal → Bool
  | [], [] => true
  | x :: xs, y :: ys => pyEq x y && pyEqList xs ys
  | _, _ => false

def pyEqFields : List (String × JVal) → List (String × JVal) → Bool
  | [], [] => true
  | (k, v) :: fs, (l, w) :: gs => k == l && pyEq v w && pyEqFields fs gs
  | _, _ => false

end

/-- Python truthiness on JSON-shaped values (`if not tickers: ...`). -/
def pyFalsy : JVal → Bool
  | .null => true
  | .bool b => !b
  | .num q => q == 0
  | .str s => s.isEmpty
  | .arr xs => xs.isEmpty
  | .obj fs => fs.isEmpty

/-- Whether the value is a JSON object (a Python dict). -/
def JVal.isObj : JVal → Bool
  | .obj _ => true
  | _ => false

/-- Whether a stored value is numeric (a Python int or float). -/
def JVal.isNum : JVal → Bool
  | .num _ => true
  | _ => false

/-- Python `v is None` on JSON-shaped values (JSON `null` parses to `None`,
the only value identical to `None`). -/
def JVal.isNull : JVal → Bool
  | .null => true
  | _ => false

/-- Python subscription `v[k]`.  Dict lookup by string key (JSON object keys
are always strings, so any other key is simply absent), list indexing by an
integral number (with Python negative-index semantics; a fractional index is a
`TypeError`), string indexing, and `TypeError` on everything else. -/
def pySubscript (v k : JVal) : Except PyErr JVal :=
  match v, k with
  | .obj fs, .str s =>
    match fs.find? (fun p => p.1 == s) with
    | some p => .ok p.2
    | none => .error .keyError
  | .obj _, .arr _ => .error .typeError
  | .obj _, .obj _ => .error .typeError
  | .obj _, _ => .error .keyError
  | .arr xs, .num q =>
    if q.den = 1 then
      let i : Int := if q.num < 0 then q.num + xs.length else q.num
      if h : 0 ≤ i ∧ i.toNat < xs.length then .ok (xs.get ⟨i.toNat, h.2⟩)
      else .error .indexError
    else .error .typeError
  | .arr _, _ => .error .typeError
  | .str s, .num q =>
    if q.den = 1 then
      let i : Int := if q.num < 0 then q.num + s.length else q.num
      if 0 ≤ i ∧ i.toNat < s.length then .ok (.str (String.singleton (s.toList.getD i.toNat ' ')))
      else .error .indexError
    else .error .typeError
  | .str _, _ => .error .typeError
  | _, _ => .error .typeError

/-- Python `next(iter(v))`: first dict key, first list element, first
character; `TypeError` on non-iterables, `StopIteration` when empty. -/
def pyNextIter : JVal → Except PyErr JVal
  | .obj [] => .error .stopIteration
  | .obj (f :: _) => .ok (.str f.1)
  | .arr [] => .error .stopIteration
  | .arr (x :: _) => .ok x
  | .str s => if s.isEmpty then .error .stopIteration else .ok (.str (String.singleton (s.toList.getD 0 ' ')))
  | _ => .error .typeError

/-- Numeric value of a run of decimal digits. -/
def digitsVal (cs : List Char) : ℚ :=
  cs.foldl (fun acc c => acc * 10 + ((c.toNat - 48 : ℕ) : ℚ)) 0

/-- Python `float()` on a plain decimal string literal: optional sign, digits,
optional fractional part, at least one digit overall.  Exponents, `inf`/`nan`,
surrounding whitespace and underscores are not modelled (no tracked claim
exercises them). -/
def parseFloat? (s : String) : Option ℚ :=
  let cs := s.toList
  let signed : ℚ × List Char :=
    match cs with
    | '-' :: rest => (-1, rest)
    | '+' :: rest => (1, rest)
    | _ => (1, cs)
  let intPart := signed.2.takeWhile Char.isDigit
  let rest := signed.2.dropWhile Char.isDigit
  match rest with
  | [] => if intPart.isEmpty then none else some (signed.1 * digitsVal intPart)
  | '.' :: frac =>
    if frac.all Char.isDigit && !(intPart.isEmpty && frac.isEmpty) then
      some (signed.1 * (digitsVal intPart + digitsVal frac / (10 : ℚ) ^ frac.length))
    else none
  | _ => none

/-- Python `float(v)`: numbers pass through, booleans become `0`/`1`, strings
are parsed (`ValueError` on failure), everything else is a `TypeError`. -/
def pyFloatE : JVal → Except PyErr ℚ
  | .num q => .ok q
  | .bool b => .ok (if b then 1 else 0)
  | .str s =>
    match parseFloat? s with
    | some q => .ok q
    | none => .error .valueError
  | _ => .error .typeError

/-- Whether `needle` occurs as a substring of `hay`. -/
def strContainsSub (hay needle : String) : Bool :=
  let h := hay.toList
  let n := needle.toList
  (List.range (h.length + 1)).any (fun i => n.isPrefixOf (h.drop i))

/-- Python `k in res` for a string `k`: dict key containment, list element
containment (by `==`), substring test on strings, `TypeError` otherwise. -/
def pyIn (res : JVal) (k : String) : Except PyErr Bool :=
  match res with
  | .obj fs => .ok (fs.any (fun p => p.1 == k))
  | .arr xs => .ok (xs.any (fun v => pyEq v (.str k)))
  | .str s => .ok (strContainsSub s k)
  | _ => .error .typeError

/-- `all(k in res for k in ks)` with Python short-circuiting. -/
def guardKeys (res : JVal) : List String → Except PyErr Bool
  | [] => .ok true
  | k :: ks =>
    match pyIn res k with
    | .error e => .error e
    | .ok true => guardKeys res ks
    | .ok false => .ok false

/-- ASCII lowering of one character (`str.lower`; the exchange names and pair
symbols the source lowers are ASCII). -/
def pyCharLower (c : Char) : Char :=
  if 'A' ≤ c ∧ c ≤ 'Z' then Char.ofNat (c.toNat + 32) else c

/-- ASCII raising of one character (`str.upper`). -/
def pyCharUpper (c : Char) : Char :=
  if 'a' ≤ c ∧ c ≤ 'z' then Char.ofNat (c.toNat - 32) else c

/-- Python `s.lower()`. -/
def pyLower (s : String) : String := ⟨s.data.map pyCharLower⟩

/-- Python `s.upper()`. -/
def pyUpper (s : String) : String := ⟨s.data.map pyCharUpper⟩

/-- Python `s.replace(pat, rep)` for the one-character patterns the source
uses. -/
def pyReplaceChar (s : String) (pat : Char) (rep : String) : String :=
  ⟨(s.data.map (fun c => if c = pat then rep.data else [c])).flatten⟩

/-- Python `s.split(sep)` for a one-character separator: the (possibly empty)
segments between separator occurrences. -/
def splitOnChar (sep : Char) : List Char → List (List Char)
  | [] => [[]]
  | c :: rest =>
    match splitOnChar sep rest with
    | s :: ss => if c = sep then [] :: s :: ss else (c :: s) :: ss
    | [] => [[]]

/-- Python tuple unpacking `a, b = s.split(sep)`: succeeds exactly when the
split yields two parts, otherwise the unpacking raises `ValueError`. -/
def split2? (s : String) (sep : Char) : Option (String × String) :=
  match splitOnChar sep s.data with
  | [a, b] => some (⟨a⟩, ⟨b⟩)
  | _ => none

section Dict

variable {α : Type}

/-- Python dict assignment `d[k] = v` on an association list: replace the
first binding of `k` in place, else append. -/
def dictSet (d : List (String × α)) (k : String) (v : α) : List (String × α) :=
  match d with
  | [] => [(k, v)]
  | (l, w) :: rest => if l = k then (l, v) :: rest else (l, w) :: dictSet rest k v

/-- Python `d.get(k)` / `d[k]` lookup on an association list. -/
def dictGet? (d : List (String × α)) (k : String) : Option α :=
  match d with
  | [] => none
  | (l, w) :: rest => if l = k then some w else dictGet? rest k

/-- Python `k in d`. -/
def dictMem (d : List (String × α)) (k : String) : Bool :=
  (dictGet? d k).isSome

/-- Python `d.pop(k, None)`: remove the first binding of `k`, if any. -/
def dictPop (d : List (String × α)) (k : String) : List (String × α) :=
  match d with
  | [] => []
  | (l, w) :: rest => if l = k then rest else (l, w) :: dictPop rest k

end Dict

/-- One entry of `coingecko_all_coins_list` (the fields the code reads). -/
structure Coin where
  id : String
  symbol : String
deriving DecidableEq, Repr

/-- Outcome of one `requests.get` call: either the client itself raised
(connection error, timeout, undecodable body) or an HTTP response with a
status code and a parsed JSON body. -/
inductive HttpResult where
  | raised
  | resp (status : Nat) (body : JVal)

/-- The mutable state of an `OrderBook` instance.  The bid and ask tables map
an id `"exchange-PAIR"` to a `(price, volume)` pair of stored Python values;
`symbols_mappings` maps ids to exchange-native pair strings.  The `thread`
field of the source holds the scheduler object and is modelled separately by
`RepeatEvery`. -/
structure OrderBook where
  orderbook_bids : List (String × (JVal × JVal))
  orderbook_asks : List (String × (JVal × JVal))
  symbols_mappings : List (String × String)
  running : Bool
  coingecko_all_coins_list : List Coin

/-- `OrderBook.__init__`: empty tables, not running, with the all-coins list
fetched from CoinGecko at construction time supplied as `coins`. -/
def OrderBook.init (coins : List Coin) : OrderBook where
  orderbook_bids := []
  orderbook_asks := []
  symbols_mappings := []
  running := false
  coingecko_all_coins_list := coins

/-- The id string `f"{exchange_name.lower()}-{pair}"`. -/
def mkId (exchange_name pair : String) : String :=
  pyLower exchange_name ++ "-" ++ pair

namespace OrderBook

/-- `OrderBook._set_bid_price_and_volume`. -/
def _set_bid_price_and_volume (ob : OrderBook) (_id : String) (price volume : JVal) : OrderBook :=
  { ob with orderbook_bids := dictSet ob.orderbook_bids _id (price, volume) }

/-- `OrderBook._set_ask_price_and_volume`. -/
def _set_ask_price_and_volume (ob : OrderBook) (_id : String) (price volume : JVal) : OrderBook :=
  { ob with orderbook_asks := dictSet ob.orderbook_asks _id (price, volume) }

/-- The rendering Python applies to a value interpolated into an f-string.
Only the string case is ever exercised by the code (CoinGecko `base` tickers);
the other cases are best-effort renderings. -/
def pyFormatAtom : JVal → String
  | .str s => s
  | .null => "None"
  | .bool b => if b then "True" else "False"
  | .num q => toString q
  | _ => ""

/-- The per-coin loop of `_populate_symbol_mappings`: fetch the tickers of
each candidate coin on the exchange, skipping HTTP error statuses and empty
ticker lists, collecting `tickers[0]["base"]` of the others.  An exception
raised by the HTTP client, a body without a `"tickers"` key, or an
unsubscriptable first ticker propagates, as in the source. -/
def collectTickers (fetch : String → HttpResult) (exchange_name : String) :
    List String → Except PyErr (List JVal)
  | [] => .ok []
  | coin_id :: rest =>
    let url := "https://api.coingecko.com/api/v3/coins/" ++ coin_id ++
      "/tickers?exchange_ids=" ++ exchange_name
    match fetch url with
    | .raised => .error .requestError
    | .resp status body =>
      if 400 ≤ status then collectTickers fetch exchange_name rest
      else
        match pySubscript body (.str "tickers") with
        | .error e => .error e
        | .ok tickers =>
          if pyFalsy tickers then collectTickers fetch exchange_name rest
          else
            match pySubscript tickers (.num 0) with
            | .error e => .error e
            | .ok t0 =>
              match pySubscript t0 (.str "base") with
              | .error e => .error e
              | .ok base =>
                match collectTickers fetch exchange_name rest with
                | .error e => .error e
                | .ok found => .ok (base :: found)

/-- `OrderBook._populate_symbol_mappings`.  `fetch` is the `requests.get`
collaborator.  The only mutation, adding the mapping, happens after every
fetch, so on an exception the state is unchanged and the error propagates. -/
def _populate_symbol_mappings (fetch : String → HttpResult) (ob : OrderBook) (_id : String) :
    Except PyErr OrderBook :=
  match split2? _id '-' with
  | none => .error .valueError
  | some (exchange_name0, pair) =>
    match split2? pair '/' with
    | none => .error .valueError
    | some (base_currency, quote_currency) =>
      let exchange_name := if exchange_name0 == "bybit" then "bybit_spot" else exchange_name0
      let exchange_name := if exchange_name == "gateio" then "gate" else exchange_name
      let exchange_name := if exchange_name == "okx" then "okex" else exchange_name
      let coingecko_coin_ids :=
        (ob.coingecko_all_coins_list.filter
          (fun coin => coin.symbol == pyLower base_currency)).map Coin.id
      if coingecko_coin_ids.isEmpty then .ok ob
      else
        match collectTickers fetch exchange_name coingecko_coin_ids with
        | .error e => .error e
        | .ok found_tickers =>
          if found_tickers.isEmpty then .ok ob
          else
            let exchange_ticker :=
              if found_tickers.any (fun t => pyEq (.str base_currency) t) then
                JVal.str base_currency
              else found_tickers.headD .null
            let mapped := pyFormatAtom exchange_ticker ++ "/" ++ quote_currency
            .ok { ob with symbols_mappings := dictSet ob.symbols_mappings _id mapped }

/-- `OrderBook._init_pair`.  With `force` the pair is reset unconditionally
and the mapping lookup is skipped; without it, a pair new to either table gets
its mapping populated (which may raise, before any table mutation) and both
tables initialised to `(None, None)`. -/
def _init_pair (fetch : String → HttpResult) (ob : OrderBook) (_id : String) (force : Bool) :
    Except PyErr OrderBook :=
  if !dictMem ob.orderbook_bids _id || !dictMem ob.orderbook_asks _id || force then
    match (if !force then _populate_symbol_mappings fetch ob _id else .ok ob) with
    | .error e => .error e
    | .ok ob1 =>
      .ok { ob1 with
        orderbook_bids := dictSet ob1.orderbook_bids _id (.null, .null)
        orderbook_asks := dictSet ob1.orderbook_asks _id (.null, .null) }
  else .ok ob

/-- `OrderBook._reset`. -/
def _reset (ob : OrderBook) : OrderBook :=
  { ob with orderbook_bids := [], orderbook_asks := [] }

/-- `OrderBook.delete`. -/
def delete (ob : OrderBook) (exchange_name pair : String) : OrderBook :=
  { ob with
    orderbook_bids := dictPop ob.orderbook_bids (mkId exchange_name pair)
    orderbook_asks := dictPop ob.orderbook_asks (mkId exchange_name pair) }

/-- `OrderBook.stop` (the call into the scheduler thread is modelled by
`RepeatEvery.stop`). -/
def stop (ob : OrderBook) : OrderBook :=
  { ob with running := false, orderbook_bids := [], orderbook_asks := [] }

/-- `OrderBook.add`, normalised to a list of pairs (a single string argument
is wrapped into a one-element list by the source).  An exception from the
mapping lookup of one pair propagates, keeping the pairs initialised before
it, exactly as a Python exception would leave `self`. -/
def add (fetch : String → HttpResult) (ob : OrderBook) (exchange_name : String) :
    List String → OrderBook × Option PyErr
  | [] => (ob, none)
  | pair :: rest =>
    match _init_pair fetch ob (mkId exchange_name pair) false with
    | .error e => (ob, some e)
    | .ok ob1 => add fetch ob1 exchange_name rest

/-- `OrderBook.get_exchange_symbol`. -/
def get_exchange_symbol (ob : OrderBook) (exchange_name pair : String) : String :=
  (dictGet? ob.symbols_mappings (mkId exchange_name pair)).getD pair

/-- `OrderBook.get_orderbook_top_bid`. -/
def get_orderbook_top_bid (ob : OrderBook) (exchange_name pair : String) : JVal × JVal :=
  (dictGet? ob.orderbook_bids (mkId exchange_name pair)).getD (.null, .null)

/-- `OrderBook.get_orderbook_top_ask`. -/
def get_orderbook_top_ask (ob : OrderBook) (exchange_name pair : String) : JVal × JVal :=
  (dictGet? ob.orderbook_asks (mkId exchange_name pair)).getD (.null, .null)

/-- `OrderBook.get_orderbook_url`.  The unsupported-exchange `RuntimeError`
message approximates the f-string `f"{exchange_name=} not supported"`. -/
def get_orderbook_url (ob : OrderBook) (exchange_name pair : String) : Except PyErr String :=
  let pair := ob.get_exchange_symbol (pyLower exchange_name) pair
  if exchange_name == "binance" then
    .ok ("https://api.binance.com/api/v3/depth?limit=1&symbol=" ++ pyReplaceChar pair '/' "")
  else if exchange_name == "bybit" then
    .ok ("https://api.bybit.com/v5/market/orderbook?category=spot&symbol=" ++
      pyReplaceChar (pyUpper pair) '/' "")
  else if exchange_name == "gateio" then
    .ok ("https://api.gateio.ws/api/v4/spot/order_book?currency_pair=" ++
      pyReplaceChar pair '/' "_")
  else if exchange_name == "kraken" then
    .ok ("https://api.kraken.com/0/public/Depth?count=1&pair=" ++ pyReplaceChar pair '/' "")
  else if exchange_name == "kucoin" then
    .ok ("https://api.kucoin.com/api/v1/market/orderbook/level2_20?symbol=" ++
      pyReplaceChar pair '/' "-")
  else if exchange_name == "okx" || exchange_name == "okex" then
    .ok ("https://www.okx.com/api/v5/market/books?instId=" ++
      pyReplaceChar (pyUpper pair) '/' "-")
  else .error (.runtimeError ("exchange_name=" ++ exchange_name ++ " not supported"))

/-- The okx extraction chain `float(res["data"][0][side][0][0])`,
`float(res["data"][0][side][0][1])`, returning the stored `(price, volume)`
pair (both coerced to numbers). -/
def okxPair (res : JVal) (side : String) : Except PyErr (JVal × JVal) :=
  match pySubscript res (.str "data") with
  | .error e => .error e
  | .ok d =>
  match pySubscript d (.num 0) with
  | .error e => .error e
  | .ok d0 =>
  match pySubscript d0 (.str side) with
  | .error e => .error e
  | .ok lvls =>
  match pySubscript lvls (.num 0) with
  | .error e => .error e
  | .ok l0 =>
  match pySubscript l0 (.num 0) with
  | .error e => .error e
  | .ok p =>
  match pyFloatE p with
  | .error e => .error e
  | .ok pf =>
  match pySubscript l0 (.num 1) with
  | .error e => .error e
  | .ok v =>
  match pyFloatE v with
  | .error e => .error e
  | .ok vf => .ok (.num pf, .num vf)

/-- The okx branch of `_update`: on success code `"0"`, store the coerced
first bid level, then the coerced first ask level; any other code leaves the
state untouched. -/
def okxBranch (ob : OrderBook) (_id : String) (res : JVal) : OrderBook × Option PyErr :=
  match pySubscript res (.str "code") with
  | .error e => (ob, some e)
  | .ok code =>
    if pyEq code (.str "0") then
      match okxPair res "bids" with
      | .error e => (ob, some e)
      | .ok bid =>
        let ob := ob._set_bid_price_and_volume _id bid.1 bid.2
        match okxPair res "asks" with
        | .error e => (ob, some e)
        | .ok ask => (ob._set_ask_price_and_volume _id ask.1 ask.2, none)
    else (ob, none)

/-- The raw extraction chain `(lvls[0][0], lvls[0][1])` of a first level,
without numeric coercion. -/
def rawLevel (lvls : JVal) : Except PyErr (JVal × JVal) :=
  match pySubscript lvls (.num 0) with
  | .error e => .error e
  | .ok l0 =>
  match pySubscript l0 (.num 0) with
  | .error e => .error e
  | .ok p =>
  match pySubscript l0 (.num 1) with
  | .error e => .error e
  | .ok v => .ok (p, v)

/-- The raw first level of the top-level array `res[side]`, as extracted by
the binance, gateio and (per result entry) kraken branches. -/
def topPair (res : JVal) (side : String) : Except PyErr (JVal × JVal) :=
  match pySubscript res (.str side) with
  | .error e => .error e
  | .ok lvls => rawLevel lvls

/-- The kucoin guard value `res["data"]["bids"]`. -/
def kucoinBidsVal (res : JVal) : Except PyErr JVal :=
  match pySubscript res (.str "data") with
  | .error e => .error e
  | .ok d => pySubscript d (.str "bids")

/-- The kucoin bid extraction `res["data"]["bids"][0]`, raw. -/
def kucoinBidPair (res : JVal) : Except PyErr (JVal × JVal) :=
  match kucoinBidsVal res with
  | .error e => .error e
  | .ok bids => rawLevel bids

/-- The kucoin ask extraction `res["data"]["asks"][0]`, raw. -/
def kucoinAskPair (res : JVal) : Except PyErr (JVal × JVal) :=
  match pySubscript res (.str "data") with
  | .error e => .error e
  | .ok d =>
  match pySubscript d (.str "asks") with
  | .error e => .error e
  | .ok asks => rawLevel asks

/-- The kucoin branch of `_update`.  On success code `"200000"` the first bid
level is stored when `res["data"]["bids"]` is not `None`; the guard before the
ask extraction re-checks `res["data"]["bids"]` (not the asks), exactly as the
source does on line 188, so a null `bids` skips both extractions while a
non-null `bids` always reaches the ask subscription. -/
def kucoinBranch (ob : OrderBook) (_id : String) (res : JVal) : OrderBook × Option PyErr :=
  match pySubscript res (.str "code") with
  | .error e => (ob, some e)
  | .ok code =>
    if pyEq code (.str "200000") then
      match kucoinBidsVal res with
      | .error e => (ob, some e)
      | .ok bids =>
        if bids.isNull then (ob, none)
        else
          match rawLevel bids with
          | .error e => (ob, some e)
          | .ok bid =>
            let ob := ob._set_bid_price_and_volume _id bid.1 bid.2
            match kucoinAskPair res with
            | .error e => (ob, some e)
            | .ok ask => (ob._set_ask_price_and_volume _id ask.1 ask.2, none)
    else (ob, none)

/-- The shared body of the binance and gateio branches of `_update`: store the
first levels of the top-level `bids` and `asks` arrays, uncoerced and
unconditionally. -/
def rawBidsAsksBranch (ob : OrderBook) (_id : String) (res : JVal) : OrderBook × Option PyErr :=
  match topPair res "bids" with
  | .error e => (ob, some e)
  | .ok bid =>
    let ob := ob._set_bid_price_and_volume _id bid.1 bid.2
    match topPair res "asks" with
    | .error e => (ob, some e)
    | .ok ask => (ob._set_ask_price_and_volume _id ask.1 ask.2, none)

/-- The bybit extraction chain `float(res["result"][side][0][0])`,
`float(res["result"][side][0][1])`. -/
def bybitPair (res : JVal) (side : String) : Except PyErr (JVal × JVal) :=
  match pySubscript res (.str "result") with
  | .error e => .error e
  | .ok r =>
  match pySubscript r (.str side) with
  | .error e => .error e
  | .ok lvls =>
  match pySubscript lvls (.num 0) with
  | .error e => .error e
  | .ok l0 =>
  match pySubscript l0 (.num 0) with
  | .error e => .error e
  | .ok p =>
  match pyFloatE p with
  | .error e => .error e
  | .ok pf =>
  match pySubscript l0 (.num 1) with
  | .error e => .error e
  | .ok v =>
  match pyFloatE v with
  | .error e => .error e
  | .ok vf => .ok (.num pf, .num vf)

/-- The bybit branch of `_update`: on success code `0`, store the coerced
first levels of `result["b"]` and `result["a"]`. -/
def bybitBranch (ob : OrderBook) (_id : String) (res : JVal) : OrderBook × Option PyErr :=
  match pySubscript res (.str "retCode") with
  | .error e => (ob, some e)
  | .ok code =>
    if pyEq code (.num 0) then
      match bybitPair res "b" with
      | .error e => (ob, some e)
      | .ok bid =>
        let ob := ob._set_bid_price_and_volume _id bid.1 bid.2
        match bybitPair res "a" with
        | .error e => (ob, some e)
        | .ok ask => (ob._set_ask_price_and_volume _id ask.1 ask.2, none)
    else (ob, none)

/-- The kraken result entry `res["result"][next(iter(res["result"]))]`. -/
def krakenEntry (res : JVal) : Except PyErr JVal :=
  match pySubscript res (.str "result") with
  | .error e => .error e
  | .ok r =>
  match pyNextIter r with
  | .error e => .error e
  | .ok key => pySubscript r key

/-- The kraken extraction of one side, raw. -/
def krakenPair (res : JVal) (side : String) : Except PyErr (JVal × JVal) :=
  match krakenEntry res with
  | .error e => .error e
  | .ok entry => topPair entry side

/-- The kraken branch of `_update`: `key = next(iter(res["result"]))`, then
store the uncoerced first levels of `res["result"][key]["bids"]` and
`res["result"][key]["asks"]`. -/
def krakenBranch (ob : OrderBook) (_id : String) (res : JVal) : OrderBook × Option PyErr :=
  match krakenEntry res with
  | .error e => (ob, some e)
  | .ok entry =>
    match topPair entry "bids" with
    | .error e => (ob, some e)
    | .ok bid =>
      let ob := ob._set_bid_price_and_volume _id bid.1 bid.2
      match topPair entry "asks" with
      | .error e => (ob, some e)
      | .ok ask => (ob._set_ask_price_and_volume _id ask.1 ask.2, none)

/-- The body of the response loop of `_update` for one `(id, response)` pair:
a `None` response invalidates the pair; otherwise the response is matched
against the exchange field-set guards in source order, the first match
dispatching to its extraction branch, and an unmatched response only logs a
warning.  The returned state is the one reached when the pending exception,
if any, was raised. -/
def updateOne (fetch : String → HttpResult) (ob : OrderBook) (_id : String)
    (res : Option JVal) : OrderBook × Option PyErr :=
  match res with
  | none =>
    match split2? _id '-' with
    | none => (ob, some .valueError)
    | some _ =>
      match ob._init_pair fetch _id true with
      | .error e => (ob, some e)
      | .ok ob1 => (ob1, none)
  | some res =>
    match guardKeys res ["code", "msg", "data", "ts"] with
    | .error e => (ob, some e)
    | .ok true => okxBranch ob _id res
    | .ok false =>
    match guardKeys res ["data", "code"] with
    | .error e => (ob, some e)
    | .ok true => kucoinBranch ob _id res
    | .ok false =>
    match guardKeys res ["bids", "asks", "lastUpdateId"] with
    | .error e => (ob, some e)
    | .ok true => rawBidsAsksBranch ob _id res
    | .ok false =>
    match guardKeys res ["result", "retCode", "retMsg", "time"] with
    | .error e => (ob, some e)
    | .ok true => bybitBranch ob _id res
    | .ok false =>
    match guardKeys res ["bids", "asks", "current", "update"] with
    | .error e => (ob, some e)
    | .ok true => rawBidsAsksBranch ob _id res
    | .ok false =>
    match guardKeys res ["result", "error"] with
    | .error e => (ob, some e)
    | .ok true => krakenBranch ob _id res
    | .ok false => (ob, none)

/-- The `for _id, res in zip(ids, responses)` loop of `_update`, stopping at
the first raised exception with the state reached so far. -/
def updateLoop (fetch : String → HttpResult) (ob : OrderBook) :
    List (String × Option JVal) → OrderBook × Option PyErr
  | [] => (ob, none)
  | (_id, res) :: rest =>
    match updateOne fetch ob _id res with
    | (ob1, none) => updateLoop fetch ob1 rest
    | (ob1, some e) => (ob1, some e)

/-- The URL-building loop at the top of `_update`; an unparsable id or an
unsupported exchange raises before any response is processed. -/
def buildUrls (ob : OrderBook) : List String → Except PyErr (List String)
  | [] => .ok []
  | _id :: rest =>
    match split2? _id '-' with
    | none => .error .valueError
    | some (exchange_name, pair) =>
      match ob.get_orderbook_url exchange_name pair with
      | .error e => .error e
      | .ok url =>
        match buildUrls ob rest with
        | .error e => .error e
        | .ok urls => .ok (url :: urls)

/-- `OrderBook._update`.  The transport collaborator `boosted_requests` is
modelled by the `responses` list it returns: one `Option JVal` per requested
URL, `none` for a request that failed or timed out.  A cycle on a stopped
book returns immediately. -/
def _update (fetch : String → HttpResult) (ob : OrderBook) (responses : List (Option JVal)) :
    OrderBook × Option PyErr :=
  if !ob.running then (ob, none)
  else
    let ids := ob.orderbook_bids.map Prod.fst
    match buildUrls ob ids with
    | .error e => (ob, some e)
    | .ok _ => updateLoop fetch ob (ids.zip responses)

/-- `OrderBook.start` as far as the store is concerned (the spawned
`RepeatEvery` thread is modelled separately). -/
def start (ob : OrderBook) : OrderBook :=
  { ob with running := true }

end OrderBook

/-- One public operation on an `OrderBook`, with the oracle data its run
consumes (the HTTP collaborator for `add`, the batch of transport outcomes for
a refresh cycle). -/
inductive Op where
  | add (fetch : String → HttpResult) (exchange_name : String) (pairs : List String)
  | delete (exchange_name pair : String)
  | start
  | stop
  | update (fetch : String → HttpResult) (responses : List (Option JVal))

/-- Run one operation, keeping the state a raised exception leaves behind. -/
def applyOp (ob : OrderBook) : Op → OrderBook
  | .add fetch exchange_name pairs => (ob.add fetch exchange_name pairs).1
  | .delete exchange_name pair => ob.delete exchange_name pair
  | .start => ob.start
  | .stop => ob.stop
  | .update fetch responses => (ob._update fetch responses).1

/-- The state of a `RepeatEvery` scheduler thread: the `runable` flag read at
the top of each loop iteration. -/
structure RepeatEvery where
  runable : Bool

/-- `RepeatEvery.stop`. -/
def RepeatEvery.stop (_t : RepeatEvery) : RepeatEvery :=
  { runable := false }

/-- `RepeatEvery.run`, driven by a finite schedule of tick opportunities.
Each schedule entry is a pair `(raises, stopped)`: whether the wrapped
function raises during that tick (the exception is caught and logged), and
whether `stop()` is invoked during that iteration (so the flag is down at the
next check).  The result counts the ticks that actually fired. -/
def RepeatEvery.run (t : RepeatEvery) : List (Bool × Bool) → Nat
  | [] => 0
  | (_raises, stopped) :: rest =>
    if t.runable then
      1 + RepeatEvery.run { runable := !stopped } rest
    else 0

/-! ### Helper lemmas -/

theorem guardKeys_cons_true {res : JVal} {k : String} {ks : List String}
    (h : guardKeys res (k :: ks) = .ok true) :
    pyIn res k = .ok true ∧ guardKeys res ks = .ok true := by
  unfold guardKeys at h
  cases hp : pyIn res k with
  | error e => rw [hp] at h; exact absurd h (by simp)
  | ok b =>
    cases b with
    | false => rw [hp] at h; exact absurd h (by simp)
    | true => rw [hp] at h; exact ⟨rfl, h⟩

theorem guardKeys_pair_true {res : JVal} {k l : String}
    (hk : pyIn res k = .ok true) (hl : pyIn res l = .ok true) :
    guardKeys res [k, l] = .ok true := by
  unfold guardKeys
  rw [hk]
  unfold guardKeys
  rw [hl]
  rfl

/-! ### Dictionary lemmas -/

theorem dictGet_set_self {α : Type} (d : List (String × α)) (k : String) (v : α) :
    dictGet? (dictSet d k v) k = some v := by
  induction d with
  | nil => simp [dictSet, dictGet?]
  | cons p rest ih =>
    obtain ⟨l, w⟩ := p
    by_cases h : l = k
    · simp [dictSet, dictGet?, h]
    · simp [dictSet, dictGet?, h, ih]

theorem dictGet_set_ne {α : Type} (d : List (String × α)) (k k2 : String) (v : α)
    (h : k2 ≠ k) : dictGet? (dictSet d k v) k2 = dictGet? d k2 := by
  induction d with
  | nil => simp [dictSet, dictGet?, Ne.symm h]
  | cons p rest ih =>
    obtain ⟨l, w⟩ := p
    by_cases hl : l = k
    · subst hl
      simp [dictSet, dictGet?, Ne.symm h]
    · simp [dictSet, dictGet?, hl, ih]

/-! ### Sample data used by witnesses -/

/-- An HTTP collaborator whose every call raises; useful where the call must
not happen or must fail. -/
def sampleFetch : String → HttpResult := fun _ => .raised

/-- A store tracking one kucoin pair, not yet populated. -/
def sampleOB : OrderBook where
  orderbook_bids := [("kucoin-VAI/USDT", (.null, .null))]
  orderbook_asks := [("kucoin-VAI/USDT", (.null, .null))]
  symbols_mappings := []
  running := true
  coingecko_all_coins_list := []

/-- A response carrying the full okx field set `code`/`msg`/`data`/`ts`,
which is a superset of the kucoin field set `data`/`code`. -/
def okxSupersetRes : JVal :=
  .obj [("code", .str "0"), ("msg", .str ""),
        ("data", .arr [.obj [
          ("bids", .arr [.arr [.num 7, .num 2]]),
          ("asks", .arr [.arr [.num 8, .num 3]])]]),
        ("ts", .str "1")]

/-! ### Claim theorems -/

/-- Claim C2: schema field-set checks run in fixed priority order, narrower
before broader: every response carrying all of `code`, `msg`, `data` and `ts`
is handled by the okx branch (float-coercing extraction from
`res["data"][0]`), never by the kucoin branch, even though the kucoin
field-set check `data`/`code` also matches such a response. -/
theorem okx_priority_over_kucoin (fetch : String → HttpResult) (ob : OrderBook)
    (_id : String) (res : JVal)
    (h : guardKeys res ["code", "msg", "data", "ts"] = .ok true) :
    OrderBook.updateOne fetch ob _id (some res) = OrderBook.okxBranch ob _id res ∧
    guardKeys res ["data", "code"] = .ok true := by
  obtain ⟨hcode, h1⟩ := guardKeys_cons_true h
  obtain ⟨hmsg, h2⟩ := guardKeys_cons_true h1
  obtain ⟨hdata, h3⟩ := guardKeys_cons_true h2
  refine ⟨?_, guardKeys_pair_true hdata hcode⟩
  simp only [OrderBook.updateOne, h]

/-- Witness for C2 at a concrete okx response (which would also pass the
kucoin field-set check): the okx branch handles it, storing float-coerced
numbers where the kucoin rules would have stored the raw strings. -/
theorem okx_priority_over_kucoin_witness :
    guardKeys okxSupersetRes ["code", "msg", "data", "ts"] = .ok true ∧
    (OrderBook.updateOne sampleFetch sampleOB "kucoin-VAI/USDT" (some okxSupersetRes) =
       OrderBook.okxBranch sampleOB "kucoin-VAI/USDT" okxSupersetRes ∧
     guardKeys okxSupersetRes ["data", "code"] = .ok true) ∧
    (OrderBook.okxBranch sampleOB "kucoin-VAI/USDT" okxSupersetRes).1.orderbook_bids =
      [("kucoin-VAI/USDT", (.num 7, .num 2))] :=
  ⟨rfl, okx_priority_over_kucoin sampleFetch sampleOB "kucoin-VAI/USDT" okxSupersetRes rfl, rfl⟩

/-- A kucoin response whose success code is `"200000"`, whose `bids` array is
non-null and whose `asks` array is null. -/
def kucoinNullAsksRes : JVal :=
  .obj [("code", .str "200000"),
        ("data", .obj [("bids", .arr [.arr [.str "0.1", .str "2"]]), ("asks", .null)])]

/-- Claim C3 (refuted, code bug): on a kucoin response with non-null bids and
null asks the guard before the ask extraction re-checks the bids array
(source line 188), so the branch stores the bid and then subscripts the null
asks array, raising a `TypeError` instead of leaving the asks unindexed. -/
theorem kucoin_null_asks_raises :
    OrderBook.updateOne sampleFetch sampleOB "kucoin-VAI/USDT" (some kucoinNullAsksRes) =
      ({ sampleOB with orderbook_bids := [("kucoin-VAI/USDT", (.str "0.1", .str "2"))] },
       some .typeError) := rfl

/-- Claim C7: `add` is idempotent: re-adding a pair whose id is already in
both tables is a no-op for any HTTP collaborator (so the symbol-mapping
lookup is not re-triggered and existing prices are kept). -/
theorem add_idempotent (fetch : String → HttpResult) (ob : OrderBook)
    (exchange_name pair : String)
    (hb : dictMem ob.orderbook_bids (mkId exchange_name pair) = true)
    (ha : dictMem ob.orderbook_asks (mkId exchange_name pair) = true) :
    ob.add fetch exchange_name [pair] = (ob, none) := by
  unfold OrderBook.add OrderBook._init_pair
  rw [hb, ha]
  rfl

/-- Witness for C7 at a populated store: re-adding the tracked pair with an
always-raising collaborator changes nothing and raises nothing. -/
theorem add_idempotent_witness :
    dictMem sampleOB.orderbook_bids (mkId "kucoin" "VAI/USDT") = true ∧
    dictMem sampleOB.orderbook_asks (mkId "kucoin" "VAI/USDT") = true ∧
    OrderBook.add sampleFetch sampleOB "kucoin" ["VAI/USDT"] = (sampleOB, none) :=
  ⟨rfl, rfl, add_idempotent sampleFetch sampleOB "kucoin" "VAI/USDT" rfl rfl⟩

/-- Claim C9: a tick whose function raises is caught and counts like any
other, with the loop continuing into the rest of the schedule; with `stop`
never invoked every scheduled tick fires (the loop never exits on its own);
once `stop` has cleared the flag no further tick fires. -/
theorem scheduler_survives_exceptions :
    (∀ (raises : Bool) (rest : List (Bool × Bool)),
       RepeatEvery.run { runable := true } ((raises, false) :: rest) =
         1 + RepeatEvery.run { runable := true } rest) ∧
    (∀ sched : List (Bool × Bool), (∀ e ∈ sched, e.2 = false) →
       RepeatEvery.run { runable := true } sched = sched.length) ∧
    (∀ (t : RepeatEvery) (sched : List (Bool × Bool)), RepeatEvery.run t.stop sched = 0) := by
  refine ⟨fun raises rest => by simp [RepeatEvery.run], ?_, ?_⟩
  · intro sched h
    induction sched with
    | nil => rfl
    | cons e rest ih =>
      obtain ⟨e1, e2⟩ := e
      have h2 : e2 = false := h (e1, e2) (List.mem_cons_self _ _)
      subst h2
      have := ih (fun x hx => h x (List.mem_cons_of_mem _ hx))
      simp [RepeatEvery.run, this, Nat.add_comm]
  · intro t sched
    cases sched with
    | nil => rfl
    | cons e rest =>
      obtain ⟨a, b⟩ := e
      simp [RepeatEvery.run, RepeatEvery.stop]

/-- Witness for C9: on a two-tick schedule whose first tick raises, both
ticks fire. -/
theorem scheduler_survives_exceptions_witness :
    RepeatEvery.run { runable := true } [(true, false), (false, false)] = 2 :=
  scheduler_survives_exceptions.2.1 [(true, false), (false, false)] (by decide)

/-- Claim C4: a response matched to a schema that carries an explicit
success/error code — okx (`code`), kucoin (`code`), bybit (`retCode`) — whose
code is not the success value leaves the whole store exactly as it was, and so
does a response matching none of the six field-set guards.  Matching follows
the cascade of the source: a branch applies when its guard passes and every
earlier guard failed. -/
theorem error_code_or_unmatched_leaves_state (fetch : String → HttpResult)
    (ob : OrderBook) (_id : String) (res : JVal) :
    (∀ code, guardKeys res ["code", "msg", "data", "ts"] = .ok true →
       pySubscript res (.str "code") = .ok code →
       pyEq code (.str "0") = false →
       OrderBook.updateOne fetch ob _id (some res) = (ob, none)) ∧
    (∀ code, guardKeys res ["code", "msg", "data", "ts"] = .ok false →
       guardKeys res ["data", "code"] = .ok true →
       pySubscript res (.str "code") = .ok code →
       pyEq code (.str "200000") = false →
       OrderBook.updateOne fetch ob _id (some res) = (ob, none)) ∧
    (∀ code, guardKeys res ["code", "msg", "data", "ts"] = .ok false →
       guardKeys res ["data", "code"] = .ok false →
       guardKeys res ["bids", "asks", "lastUpdateId"] = .ok false →
       guardKeys res ["result", "retCode", "retMsg", "time"] = .ok true →
       pySubscript res (.str "retCode") = .ok code →
       pyEq code (.num 0) = false →
       OrderBook.updateOne fetch ob _id (some res) = (ob, none)) ∧
    (guardKeys res ["code", "msg", "data", "ts"] = .ok false →
     guardKeys res ["data", "code"] = .ok false →
     guardKeys res ["bids", "asks", "lastUpdateId"] = .ok false →
     guardKeys res ["result", "retCode", "retMsg", "time"] = .ok false →
     guardKeys res ["bids", "asks", "current", "update"] = .ok false →
     guardKeys res ["result", "error"] = .ok false →
     OrderBook.updateOne fetch ob _id (some res) = (ob, none)) := by
  refine ⟨?_, ?_, ?_, ?_⟩
  · intro code h1 hc hne
    simp only [OrderBook.updateOne, h1, OrderBook.okxBranch, hc, hne]
    simp
  · intro code h1 h2 hc hne
    simp only [OrderBook.updateOne, h1, h2, OrderBook.kucoinBranch, hc, hne]
    simp
  · intro code h1 h2 h3 h4 hc hne
    simp only [OrderBook.updateOne, h1, h2, h3, h4, OrderBook.bybitBranch, hc, hne]
    simp
  · intro h1 h2 h3 h4 h5 h6
    simp only [OrderBook.updateOne, h1, h2, h3, h4, h5, h6]

/-- Witness for C4: an okx error response, a kucoin error response, a bybit
error response, and an unrecognized response, each leaving the sample store
untouched. -/
theorem error_code_or_unmatched_leaves_state_witness :
    OrderBook.updateOne sampleFetch sampleOB "kucoin-VAI/USDT"
      (some (.obj [("code", .str "1"), ("msg", .str "err"), ("data", .null), ("ts", .null)])) =
      (sampleOB, none) ∧
    OrderBook.updateOne sampleFetch sampleOB "kucoin-VAI/USDT"
      (some (.obj [("data", .null), ("code", .str "900000")])) = (sampleOB, none) ∧
    OrderBook.updateOne sampleFetch sampleOB "kucoin-VAI/USDT"
      (some (.obj [("result", .null), ("retCode", .num 1), ("retMsg", .str "err"),
        ("time", .null)])) = (sampleOB, none) ∧
    OrderBook.updateOne sampleFetch sampleOB "kucoin-VAI/USDT"
      (some (.obj [("foo", .null)])) = (sampleOB, none) :=
  ⟨(error_code_or_unmatched_leaves_state sampleFetch sampleOB "kucoin-VAI/USDT" _).1
     (.str "1") rfl rfl rfl,
   (error_code_or_unmatched_leaves_state sampleFetch sampleOB "kucoin-VAI/USDT" _).2.1
     (.str "900000") rfl rfl rfl rfl,
   (error_code_or_unmatched_leaves_state sampleFetch sampleOB "kucoin-VAI/USDT" _).2.2.1
     (.num 1) rfl rfl rfl rfl rfl rfl,
   (error_code_or_unmatched_leaves_state sampleFetch sampleOB "kucoin-VAI/USDT" _).2.2.2
     rfl rfl rfl rfl rfl rfl⟩

theorem okxPair_num {res : JVal} {side : String} {pv : JVal × JVal}
    (h : OrderBook.okxPair res side = .ok pv) : ∃ p v : ℚ, pv = (.num p, .num v) := by
  unfold OrderBook.okxPair at h
  repeat' split at h
  all_goals first
    | exact ⟨_, _, (Except.ok.inj h).symm⟩
    | exact absurd h (by simp)

theorem bybitPair_num {res : JVal} {side : String} {pv : JVal × JVal}
    (h : OrderBook.bybitPair res side = .ok pv) : ∃ p v : ℚ, pv = (.num p, .num v) := by
  unfold OrderBook.bybitPair at h
  repeat' split at h
  all_goals first
    | exact ⟨_, _, (Except.ok.inj h).symm⟩
    | exact absurd h (by simp)

/-- After a branch runs, the bid and ask entries of `_id` are each either
untouched or hold a pair of numbers. -/
def entryNumOrSame (ob ob1 : OrderBook) (_id : String) : Prop :=
  (dictGet? ob1.orderbook_bids _id = dictGet? ob.orderbook_bids _id ∨
    ∃ p v : ℚ, dictGet? ob1.orderbook_bids _id = some (.num p, .num v)) ∧
  (dictGet? ob1.orderbook_asks _id = dictGet? ob.orderbook_asks _id ∨
    ∃ p v : ℚ, dictGet? ob1.orderbook_asks _id = some (.num p, .num v))

/-- After a branch runs, the bid entry of `_id` is either untouched or holds
exactly the uncoerced output of the given extraction. -/
def bidRawOrSame (ob ob1 : OrderBook) (_id : String)
    (extract : Except PyErr (JVal × JVal)) : Prop :=
  dictGet? ob1.orderbook_bids _id = dictGet? ob.orderbook_bids _id ∨
  ∃ pv, extract = .ok pv ∧ dictGet? ob1.orderbook_bids _id = some pv

/-- Ask-side analogue of `bidRawOrSame`. -/
def askRawOrSame (ob ob1 : OrderBook) (_id : String)
    (extract : Except PyErr (JVal × JVal)) : Prop :=
  dictGet? ob1.orderbook_asks _id = dictGet? ob.orderbook_asks _id ∨
  ∃ pv, extract = .ok pv ∧ dictGet? ob1.orderbook_asks _id = some pv

/-- The kucoin sample orderbook response of the repository test suite, whose
prices and volumes are JSON strings. -/
def kucoinFixtureRes : JVal :=
  .obj [("code", .str "200000"),
        ("data", .obj [
          ("time", .num 1675853445037),
          ("sequence", .str "47221666"),
          ("bids", .arr [.arr [.str "0.197007", .str "1300"],
                         .arr [.str "0.197", .str "202.6394"]]),
          ("asks", .arr [.arr [.str "0.197607", .str "1506.5178"],
                         .arr [.str "0.197608", .str "1300"]])])]

/-- Counterexample to claim C5 as stated: a successful kucoin refresh stores
the raw JSON strings of the response (exactly as the repository test asserts),
so the stored values are not numeric for the kucoin branch. -/
theorem kucoin_stores_strings :
    OrderBook.updateOne sampleFetch sampleOB "kucoin-VAI/USDT" (some kucoinFixtureRes) =
      ({ sampleOB with
          orderbook_bids := [("kucoin-VAI/USDT", (.str "0.197007", .str "1300"))]
          orderbook_asks := [("kucoin-VAI/USDT", (.str "0.197607", .str "1506.5178"))] },
       none) ∧
    JVal.isNum (.str "0.197007") = false :=
  ⟨rfl, rfl⟩

theorem okxBranch_entries (ob : OrderBook) (_id : String) (res : JVal) :
    entryNumOrSame ob (OrderBook.okxBranch ob _id res).1 _id := by
  unfold OrderBook.okxBranch
  cases hc : pySubscript res (.str "code") with
  | error e => exact ⟨Or.inl rfl, Or.inl rfl⟩
  | ok code =>
    by_cases hz : pyEq code (.str "0") = true
    · simp only [hz, if_true]
      cases hb : OrderBook.okxPair res "bids" with
      | error e => exact ⟨Or.inl rfl, Or.inl rfl⟩
      | ok bid =>
        obtain ⟨p, v, rfl⟩ := okxPair_num hb
        cases ha : OrderBook.okxPair res "asks" with
        | error e =>
          refine ⟨Or.inr ⟨p, v, ?_⟩, Or.inl rfl⟩
          simp [OrderBook._set_bid_price_and_volume, dictGet_set_self]
        | ok ask =>
          obtain ⟨p2, v2, rfl⟩ := okxPair_num ha
          refine ⟨Or.inr ⟨p, v, ?_⟩, Or.inr ⟨p2, v2, ?_⟩⟩
          · simp [OrderBook._set_bid_price_and_volume,
              OrderBook._set_ask_price_and_volume, dictGet_set_self]
          · simp [OrderBook._set_bid_price_and_volume,
              OrderBook._set_ask_price_and_volume, dictGet_set_self]
    · simp only [Bool.not_eq_true] at hz
      simp only [hz, Bool.false_eq_true, if_false]
      exact ⟨Or.inl rfl, Or.inl rfl⟩

theorem bybitBranch_entries (ob : OrderBook) (_id : String) (res : JVal) :
    entryNumOrSame ob (OrderBook.bybitBranch ob _id res).1 _id := by
  unfold OrderBook.bybitBranch
  cases hc : pySubscript res (.str "retCode") with
  | error e => exact ⟨Or.inl rfl, Or.inl rfl⟩
  | ok code =>
    by_cases hz : pyEq code (.num 0) = true
    · simp only [hz, if_true]
      cases hb : OrderBook.bybitPair res "b" with
      | error e => exact ⟨Or.inl rfl, Or.inl rfl⟩
      | ok bid =>
        obtain ⟨p, v, rfl⟩ := bybitPair_num hb
        cases ha : OrderBook.bybitPair res "a" with
        | error e =>
          refine ⟨Or.inr ⟨p, v, ?_⟩, Or.inl rfl⟩
          simp [OrderBook._set_bid_price_and_volume, dictGet_set_self]
        | ok ask =>
          obtain ⟨p2, v2, rfl⟩ := bybitPair_num ha
          refine ⟨Or.inr ⟨p, v, ?_⟩, Or.inr ⟨p2, v2, ?_⟩⟩
          · simp [OrderBook._set_bid_price_and_volume,
              OrderBook._set_ask_price_and_volume, dictGet_set_self]
          · simp [OrderBook._set_bid_price_and_volume,
              OrderBook._set_ask_price_and_volume, dictGet_set_self]
    · simp only [Bool.not_eq_true] at hz
      simp only [hz, Bool.false_eq_true, if_false]
      exact ⟨Or.inl rfl, Or.inl rfl⟩

theorem rawBidsAsksBranch_entries (ob : OrderBook) (_id : String) (res : JVal) :
    bidRawOrSame ob (OrderBook.rawBidsAsksBranch ob _id res).1 _id
      (OrderBook.topPair res "bids") ∧
    askRawOrSame ob (OrderBook.rawBidsAsksBranch ob _id res).1 _id
      (OrderBook.topPair res "asks") := by
  unfold OrderBook.rawBidsAsksBranch
  cases hb : OrderBook.topPair res "bids" with
  | error e => exact ⟨Or.inl rfl, Or.inl rfl⟩
  | ok bid =>
    cases ha : OrderBook.topPair res "asks" with
    | error e =>
      refine ⟨Or.inr ⟨bid, rfl, ?_⟩, Or.inl rfl⟩
      simp [OrderBook._set_bid_price_and_volume, dictGet_set_self]
    | ok ask =>
      refine ⟨Or.inr ⟨bid, rfl, ?_⟩, Or.inr ⟨ask, rfl, ?_⟩⟩
      · simp [OrderBook._set_bid_price_and_volume,
          OrderBook._set_ask_price_and_volume, dictGet_set_self]
      · simp [OrderBook._set_bid_price_and_volume,
          OrderBook._set_ask_price_and_volume, dictGet_set_self]

theorem kucoinBranch_entries (ob : OrderBook) (_id : String) (res : JVal) :
    bidRawOrSame ob (OrderBook.kucoinBranch ob _id res).1 _id
      (OrderBook.kucoinBidPair res) ∧
    askRawOrSame ob (OrderBook.kucoinBranch ob _id res).1 _id
      (OrderBook.kucoinAskPair res) := by
  unfold OrderBook.kucoinBranch
  cases hc : pySubscript res (.str "code") with
  | error e => exact ⟨Or.inl rfl, Or.inl rfl⟩
  | ok code =>
    by_cases hz : pyEq code (.str "200000") = true
    · simp only [hz, if_true]
      cases hb : OrderBook.kucoinBidsVal res with
      | error e => exact ⟨Or.inl rfl, Or.inl rfl⟩
      | ok bids =>
        by_cases hn : bids.isNull = true
        · simp only [hn, if_true]
          exact ⟨Or.inl rfl, Or.inl rfl⟩
        · simp only [Bool.not_eq_true] at hn
          simp only [hn, Bool.false_eq_true, if_false]
          cases hr : OrderBook.rawLevel bids with
          | error e => exact ⟨Or.inl rfl, Or.inl rfl⟩
          | ok bid =>
            cases ha : OrderBook.kucoinAskPair res with
            | error e =>
              refine ⟨Or.inr ⟨bid, ?_, ?_⟩, Or.inl rfl⟩
              · unfold OrderBook.kucoinBidPair
                rw [hb]
                exact hr
              · simp [OrderBook._set_bid_price_and_volume, dictGet_set_self]
            | ok ask =>
              refine ⟨Or.inr ⟨bid, ?_, ?_⟩, Or.inr ⟨ask, rfl, ?_⟩⟩
              · unfold OrderBook.kucoinBidPair
                rw [hb]
                exact hr
              · simp [OrderBook._set_bid_price_and_volume,
                  OrderBook._set_ask_price_and_volume, dictGet_set_self]
              · simp [OrderBook._set_bid_price_and_volume,
                  OrderBook._set_ask_price_and_volume, dictGet_set_self]
    · simp only [Bool.not_eq_true] at hz
      simp only [hz, Bool.false_eq_true, if_false]
      exact ⟨Or.inl rfl, Or.inl rfl⟩

theorem krakenBranch_entries (ob : OrderBook) (_id : String) (res : JVal) :
    bidRawOrSame ob (OrderBook.krakenBranch ob _id res).1 _id
      (OrderBook.krakenPair res "bids") ∧
    askRawOrSame ob (OrderBook.krakenBranch ob _id res).1 _id
      (OrderBook.krakenPair res "asks") := by
  unfold OrderBook.krakenBranch
  cases he : OrderBook.krakenEntry res with
  | error e => exact ⟨Or.inl rfl, Or.inl rfl⟩
  | ok entry =>
    dsimp only
    cases hb : OrderBook.topPair entry "bids" with
    | error e => exact ⟨Or.inl rfl, Or.inl rfl⟩
    | ok bid =>
      cases ha : OrderBook.topPair entry "asks" with
      | error e =>
        refine ⟨Or.inr ⟨bid, ?_, ?_⟩, Or.inl rfl⟩
        · unfold OrderBook.krakenPair
          rw [he]
          exact hb
        · simp [OrderBook._set_bid_price_and_volume, dictGet_set_self]
      | ok ask =>
        refine ⟨Or.inr ⟨bid, ?_, ?_⟩, Or.inr ⟨ask, ?_, ?_⟩⟩
        · unfold OrderBook.krakenPair
          rw [he]
          exact hb
        · simp [OrderBook._set_bid_price_and_volume,
            OrderBook._set_ask_price_and_volume, dictGet_set_self]
        · unfold OrderBook.krakenPair
          rw [he]
          exact ha
        · simp [OrderBook._set_bid_price_and_volume,
            OrderBook._set_ask_price_and_volume, dictGet_set_self]

/-- Claim C5 as amended: only the okx and bybit branches coerce the extracted
price and volume to floats before storing (their entries are untouched or
numeric); the kucoin, binance, gateio and kraken branches store the extracted
JSON values verbatim, so string fields are stored as strings. -/
theorem stored_values_by_branch (ob : OrderBook) (_id : String) (res : JVal) :
    entryNumOrSame ob (OrderBook.okxBranch ob _id res).1 _id ∧
    entryNumOrSame ob (OrderBook.bybitBranch ob _id res).1 _id ∧
    (bidRawOrSame ob (OrderBook.rawBidsAsksBranch ob _id res).1 _id
       (OrderBook.topPair res "bids") ∧
     askRawOrSame ob (OrderBook.rawBidsAsksBranch ob _id res).1 _id
       (OrderBook.topPair res "asks")) ∧
    (bidRawOrSame ob (OrderBook.kucoinBranch ob _id res).1 _id
       (OrderBook.kucoinBidPair res) ∧
     askRawOrSame ob (OrderBook.kucoinBranch ob _id res).1 _id
       (OrderBook.kucoinAskPair res)) ∧
    (bidRawOrSame ob (OrderBook.krakenBranch ob _id res).1 _id
       (OrderBook.krakenPair res "bids") ∧
     askRawOrSame ob (OrderBook.krakenBranch ob _id res).1 _id
       (OrderBook.krakenPair res "asks")) :=
  ⟨okxBranch_entries ob _id res, bybitBranch_entries ob _id res,
   rawBidsAsksBranch_entries ob _id res, kucoinBranch_entries ob _id res,
   krakenBranch_entries ob _id res⟩

/-- Counterexample to claim C6 as stated: with a coins list containing a
matching candidate, an HTTP client exception (network error) inside the
symbol-mapping lookup propagates out of `add` to its caller instead of being
silently absorbed. -/
theorem add_raises_on_network_error :
    (OrderBook.add sampleFetch (OrderBook.init [⟨"vaiot", "vai"⟩]) "kucoin"
      ["VAI/USDT"]).2 = some .requestError := rfl

/-- A tickers-endpoint collaborator on which every lookup fails without the
HTTP client itself raising: each call returns, and each response either has an
HTTP error status or carries a falsy `"tickers"` field (no ticker found). -/
def FailingFetch (fetch : String → HttpResult) : Prop :=
  ∀ url, match fetch url with
    | .raised => False
    | .resp status body =>
      400 ≤ status ∨
      ∃ tickers, pySubscript body (.str "tickers") = .ok tickers ∧ pyFalsy tickers = true

/-- When every lookup fails, the per-coin loop raises nothing and collects no
ticker at all. -/
theorem collectTickers_failing {fetch : String → HttpResult} (hff : FailingFetch fetch)
    (en : String) (ids : List String) :
    OrderBook.collectTickers fetch en ids = .ok [] := by
  induction ids with
  | nil => rfl
  | cons c rest ih =>
    unfold OrderBook.collectTickers
    dsimp only
    have h := hff ("https://api.coingecko.com/api/v3/coins/" ++ c ++
      "/tickers?exchange_ids=" ++ en)
    cases hf : fetch ("https://api.coingecko.com/api/v3/coins/" ++ c ++
        "/tickers?exchange_ids=" ++ en) with
    | raised =>
      rw [hf] at h
      exact h.elim
    | resp status body =>
      rw [hf] at h
      dsimp only
      by_cases hs : 400 ≤ status
      · rw [if_pos hs]
        exact ih
      · rw [if_neg hs]
        rcases h with h | ⟨tickers, htk, hfal⟩
        · exact absurd h hs
        · rw [htk]
          dsimp only
          simp only [hfal, if_true]
          exact ih

/-- When every lookup fails, the mapping population returns the store
unchanged: no exception and no new mapping entry. -/
theorem populate_failing {fetch : String → HttpResult} (hff : FailingFetch fetch)
    (ob : OrderBook) (_id en pr b q : String)
    (h1 : split2? _id '-' = some (en, pr)) (h2 : split2? pr '/' = some (b, q)) :
    OrderBook._populate_symbol_mappings fetch ob _id = .ok ob := by
  unfold OrderBook._populate_symbol_mappings
  rw [h1]
  dsimp only
  rw [h2]
  dsimp only
  by_cases hemp :
      ((ob.coingecko_all_coins_list.filter (fun coin => coin.symbol == pyLower b)).map
        Coin.id).isEmpty = true
  · simp only [hemp, if_true]
  · simp only [Bool.not_eq_true] at hemp
    simp only [hemp, Bool.false_eq_true, if_false]
    rw [collectTickers_failing hff]
    rfl

/-- Claim C6 as amended: on a collaborator where every lookup fails without
the HTTP client raising (error statuses, empty ticker lists — the
empty-candidate-list case needs no collaborator at all), `add` raises nothing
and leaves the mapping table exactly as it was, so the key gets no entry and
`get_exchange_symbol` falls back to the canonical pair for every key that had
no mapping before the add; an exception raised by the HTTP client inside the
lookup (network error, timeout), by contrast, propagates out of `add` to its
caller. -/
theorem populate_absorbs_lookup_failures (fetch : String → HttpResult)
    (ob : OrderBook) (exchange_name pair en pr b q : String)
    (hff : FailingFetch fetch)
    (h1 : split2? (mkId exchange_name pair) '-' = some (en, pr))
    (h2 : split2? pr '/' = some (b, q)) :
    (OrderBook.add fetch ob exchange_name [pair]).2 = none ∧
    (OrderBook.add fetch ob exchange_name [pair]).1.symbols_mappings =
      ob.symbols_mappings ∧
    (∀ e2 p2, dictGet? ob.symbols_mappings (mkId e2 p2) = none →
      OrderBook.get_exchange_symbol (OrderBook.add fetch ob exchange_name [pair]).1
        e2 p2 = p2) := by
  have hpop := populate_failing hff ob (mkId exchange_name pair) en pr b q h1 h2
  have hinit : OrderBook._init_pair fetch ob (mkId exchange_name pair) false = .ok ob ∨
      OrderBook._init_pair fetch ob (mkId exchange_name pair) false =
        .ok { ob with
          orderbook_bids := dictSet ob.orderbook_bids (mkId exchange_name pair)
            (.null, .null)
          orderbook_asks := dictSet ob.orderbook_asks (mkId exchange_name pair)
            (.null, .null) } := by
    unfold OrderBook._init_pair
    by_cases hmem : (!dictMem ob.orderbook_bids (mkId exchange_name pair) ||
        !dictMem ob.orderbook_asks (mkId exchange_name pair) || false) = true
    · right
      simp only [hmem, if_true, Bool.not_false, hpop]
    · left
      simp only [Bool.not_eq_true] at hmem
      simp only [hmem, Bool.false_eq_true, if_false]
  have hadd : (OrderBook.add fetch ob exchange_name [pair]).2 = none ∧
      (OrderBook.add fetch ob exchange_name [pair]).1.symbols_mappings =
        ob.symbols_mappings := by
    rcases hinit with hi | hi
    · unfold OrderBook.add
      rw [hi]
      exact ⟨rfl, rfl⟩
    · unfold OrderBook.add
      rw [hi]
      exact ⟨rfl, rfl⟩
  refine ⟨hadd.1, hadd.2, ?_⟩
  intro e2 p2 hpre
  unfold OrderBook.get_exchange_symbol
  rw [hadd.2, hpre]
  rfl

/-- Witness for C6 (amended) with a collaborator that always answers HTTP 500
and a coins list that does produce a candidate (so the collaborator really is
consulted): adding the pair raises nothing, the mapping table stays empty,
and the canonical pair is used as the symbol fallback. -/
theorem populate_absorbs_lookup_failures_witness :
    FailingFetch (fun _ => .resp 500 .null) ∧
    ((OrderBook.add (fun _ => .resp 500 .null) (OrderBook.init [⟨"vaiot", "vai"⟩])
        "kucoin" ["VAI/USDT"]).2 = none ∧
     (OrderBook.add (fun _ => .resp 500 .null) (OrderBook.init [⟨"vaiot", "vai"⟩])
        "kucoin" ["VAI/USDT"]).1.symbols_mappings =
       (OrderBook.init [⟨"vaiot", "vai"⟩]).symbols_mappings ∧
     (∀ e2 p2,
       dictGet? (OrderBook.init [⟨"vaiot", "vai"⟩]).symbols_mappings (mkId e2 p2) =
         none →
       OrderBook.get_exchange_symbol
         (OrderBook.add (fun _ => .resp 500 .null) (OrderBook.init [⟨"vaiot", "vai"⟩])
           "kucoin" ["VAI/USDT"]).1 e2 p2 = p2)) :=
  have hff : FailingFetch (fun _ => .resp 500 .null) := fun _ => Or.inl (by decide)
  ⟨hff, populate_absorbs_lookup_failures (fun _ => .resp 500 .null)
    (OrderBook.init [⟨"vaiot", "vai"⟩]) "kucoin" "VAI/USDT" "kucoin" "VAI/USDT"
    "VAI" "USDT" hff rfl rfl⟩

theorem zip_fst_sublist {α β : Type} (l1 : List α) (l2 : List β) :
    ((l1.zip l2).map Prod.fst).Sublist l1 := by
  induction l1 generalizing l2 with
  | nil => simp
  | cons a t ih =>
    cases l2 with
    | nil => simp
    | cons b t2 =>
      simpa using (ih t2).cons₂ a

theorem init_pair_force_eq (fetch : String → HttpResult) (ob : OrderBook) (_id : String) :
    OrderBook._init_pair fetch ob _id true =
      .ok { ob with
        orderbook_bids := dictSet ob.orderbook_bids _id (.null, .null)
        orderbook_asks := dictSet ob.orderbook_asks _id (.null, .null) } := by
  unfold OrderBook._init_pair
  simp

/-- Processing one response only ever touches the entries of its own id. -/
theorem updateOne_frame (fetch : String → HttpResult) (ob : OrderBook) (_id : String)
    (res : Option JVal) (k : String) (hk : k ≠ _id) :
    dictGet? (OrderBook.updateOne fetch ob _id res).1.orderbook_bids k =
      dictGet? ob.orderbook_bids k ∧
    dictGet? (OrderBook.updateOne fetch ob _id res).1.orderbook_asks k =
      dictGet? ob.orderbook_asks k := by
  unfold OrderBook.updateOne OrderBook.okxBranch OrderBook.kucoinBranch
    OrderBook.rawBidsAsksBranch OrderBook.bybitBranch OrderBook.krakenBranch
  simp only [init_pair_force_eq]
  repeat' split
  all_goals constructor
  all_goals
    simp_all [OrderBook._set_bid_price_and_volume, OrderBook._set_ask_price_and_volume,
      dictGet_set_ne, hk]

/-- A loop that never processes `k` leaves the entries of `k` alone, whether
or not it raises. -/
theorem updateLoop_frame (fetch : String → HttpResult)
    (entries : List (String × Option JVal)) (ob : OrderBook) (k : String)
    (hk : ∀ e ∈ entries, k ≠ e.1) :
    dictGet? (OrderBook.updateLoop fetch ob entries).1.orderbook_bids k =
      dictGet? ob.orderbook_bids k ∧
    dictGet? (OrderBook.updateLoop fetch ob entries).1.orderbook_asks k =
      dictGet? ob.orderbook_asks k := by
  induction entries generalizing ob with
  | nil => exact ⟨rfl, rfl⟩
  | cons e rest ih =>
    obtain ⟨e1, e2⟩ := e
    have hone := updateOne_frame fetch ob e1 e2 k (hk (e1, e2) (List.mem_cons_self _ _))
    unfold OrderBook.updateLoop
    cases hu : OrderBook.updateOne fetch ob e1 e2 with
    | mk ob1 eopt =>
      rw [hu] at hone
      cases eopt with
      | none =>
        dsimp only
        have := ih ob1 (fun x hx => hk x (List.mem_cons_of_mem _ hx))
        exact ⟨this.1.trans hone.1, this.2.trans hone.2⟩
      | some e => exact hone

/-- A `None` response that the loop body finishes without raising resets both
entries of its id. -/
theorem updateOne_none_resets {fetch : String → HttpResult} {ob ob1 : OrderBook}
    {_id : String} (h : OrderBook.updateOne fetch ob _id none = (ob1, none)) :
    dictGet? ob1.orderbook_bids _id = some (.null, .null) ∧
    dictGet? ob1.orderbook_asks _id = some (.null, .null) := by
  unfold OrderBook.updateOne at h
  cases hs : split2? _id '-' with
  | none =>
    rw [hs] at h
    exact absurd (congrArg Prod.snd h) (by simp)
  | some x =>
    rw [hs] at h
    dsimp only at h
    unfold OrderBook._init_pair at h
    simp only [Bool.or_true, if_true, Bool.not_true, Bool.false_eq_true, if_false] at h
    have hob1 := congrArg Prod.fst h
    dsimp only at hob1
    rw [← hob1]
    exact ⟨dictGet_set_self _ _ _, dictGet_set_self _ _ _⟩

/-- The loop part of claim C1: if the loop finishes without raising and one
of its (distinct) ids got a `None` response, that id ends invalidated. -/
theorem updateLoop_null_invalidates (fetch : String → HttpResult)
    (entries : List (String × Option JVal)) (ob : OrderBook) (k : String)
    (hnd : (entries.map Prod.fst).Nodup)
    (hmem : (k, (none : Option JVal)) ∈ entries)
    (hok : (OrderBook.updateLoop fetch ob entries).2 = none) :
    dictGet? (OrderBook.updateLoop fetch ob entries).1.orderbook_bids k =
      some (.null, .null) ∧
    dictGet? (OrderBook.updateLoop fetch ob entries).1.orderbook_asks k =
      some (.null, .null) := by
  induction entries generalizing ob with
  | nil => exact absurd hmem (by simp)
  | cons e rest ih =>
    obtain ⟨e1, e2⟩ := e
    unfold OrderBook.updateLoop at hok ⊢
    cases hu : OrderBook.updateOne fetch ob e1 e2 with
    | mk ob1 eopt =>
      try rw [hu] at hok
      cases eopt with
      | some e => exact absurd hok (by simp)
      | none =>
        dsimp only at hok ⊢
        rcases List.mem_cons.mp hmem with hhead | htail
        · obtain ⟨hk1, hk2⟩ := Prod.mk.inj hhead.symm
          subst hk1
          subst hk2
          have hreset := updateOne_none_resets hu
          have hfr := updateLoop_frame fetch rest ob1 e1
            (fun x hx hcontra =>
              (List.nodup_cons.mp hnd).1 (List.mem_map.mpr ⟨x, hx, hcontra.symm⟩))
          exact ⟨hfr.1.trans hreset.1, hfr.2.trans hreset.2⟩
        · exact ih ob1 (List.nodup_cons.mp hnd).2 htail hok

/-- Claim C1: a tracked key whose transport result in a refresh cycle is null
has both its entries reset to `(None, None)` by that cycle (provided the
cycle raises no exception), so subsequent reads return absent/absent even if
a previous cycle had populated them. -/
theorem null_fetch_invalidates (fetch : String → HttpResult) (ob : OrderBook)
    (k : String) (rs : List (Option JVal))
    (hnd : (ob.orderbook_bids.map Prod.fst).Nodup)
    (hrun : ob.running = true)
    (hmem : (k, (none : Option JVal)) ∈ (ob.orderbook_bids.map Prod.fst).zip rs)
    (hok : (OrderBook._update fetch ob rs).2 = none) :
    ∀ exchange_name pair, mkId exchange_name pair = k →
      OrderBook.get_orderbook_top_bid (OrderBook._update fetch ob rs).1
        exchange_name pair = (.null, .null) ∧
      OrderBook.get_orderbook_top_ask (OrderBook._update fetch ob rs).1
        exchange_name pair = (.null, .null) := by
  intro exchange_name pair hkey
  unfold OrderBook._update at hok ⊢
  rw [hrun] at hok ⊢
  simp only [Bool.not_true, Bool.false_eq_true, if_false] at hok ⊢
  cases hb : OrderBook.buildUrls ob (ob.orderbook_bids.map Prod.fst) with
  | error e =>
    try rw [hb] at hok
    exact absurd hok (by simp)
  | ok urls =>
    try rw [hb] at hok
    dsimp only at hok ⊢
    have hnd2 : (((ob.orderbook_bids.map Prod.fst).zip rs).map Prod.fst).Nodup :=
      hnd.sublist (zip_fst_sublist _ _)
    have := updateLoop_null_invalidates fetch _ ob k hnd2 hmem hok
    unfold OrderBook.get_orderbook_top_bid OrderBook.get_orderbook_top_ask
    rw [hkey, this.1, this.2]
    exact ⟨rfl, rfl⟩

/-- Witness for C1: the sample store tracks one populated pair, its fetch
result is null, and after the cycle both reads return absent/absent. -/
theorem null_fetch_invalidates_witness :
    OrderBook.get_orderbook_top_bid
      (OrderBook._update sampleFetch
        { sampleOB with
            orderbook_bids := [("kucoin-VAI/USDT", (.str "0.197007", .str "1300"))]
            orderbook_asks := [("kucoin-VAI/USDT", (.str "0.197607", .str "1506.5178"))] }
        [none]).1 "kucoin" "VAI/USDT" = (.null, .null) ∧
    OrderBook.get_orderbook_top_ask
      (OrderBook._update sampleFetch
        { sampleOB with
            orderbook_bids := [("kucoin-VAI/USDT", (.str "0.197007", .str "1300"))]
            orderbook_asks := [("kucoin-VAI/USDT", (.str "0.197607", .str "1506.5178"))] }
        [none]).1 "kucoin" "VAI/USDT" = (.null, .null) :=
  null_fetch_invalidates sampleFetch
    { sampleOB with
        orderbook_bids := [("kucoin-VAI/USDT", (.str "0.197007", .str "1300"))]
        orderbook_asks := [("kucoin-VAI/USDT", (.str "0.197607", .str "1506.5178"))] }
    "kucoin-VAI/USDT" [none] (by simp) rfl (List.Mem.head _) rfl
    "kucoin" "VAI/USDT" rfl

/-- The bid and ask tables hold exactly the same keys, in the same order. -/
def keysEq (ob : OrderBook) : Prop :=
  ob.orderbook_bids.map Prod.fst = ob.orderbook_asks.map Prod.fst

/-- Key-level effect of `dictPop`. -/
def listPop : List String → String → List String
  | [], _ => []
  | l :: rest, k => if l = k then rest else l :: listPop rest k

theorem map_fst_dictSet {α : Type} (d : List (String × α)) (k : String) (v : α) :
    (dictSet d k v).map Prod.fst =
      if k ∈ d.map Prod.fst then d.map Prod.fst else d.map Prod.fst ++ [k] := by
  induction d with
  | nil => simp [dictSet]
  | cons p rest ih =>
    obtain ⟨l, w⟩ := p
    by_cases h : l = k
    · subst h
      simp [dictSet]
    · have hset : dictSet ((l, w) :: rest) k v = (l, w) :: dictSet rest k v := by
        simp [dictSet, h]
      rw [hset]
      simp only [List.map_cons, ih]
      by_cases hm : k ∈ rest.map Prod.fst
      · simp [hm, List.mem_cons, Ne.symm h]
      · simp [hm, List.mem_cons, Ne.symm h]

theorem map_fst_dictPop {α : Type} (d : List (String × α)) (k : String) :
    (dictPop d k).map Prod.fst = listPop (d.map Prod.fst) k := by
  induction d with
  | nil => simp [dictPop, listPop]
  | cons p rest ih =>
    obtain ⟨l, w⟩ := p
    by_cases h : l = k
    · simp [dictPop, listPop, h]
    · simp [dictPop, listPop, h, ih]

/-- The symbol-mapping lookup never touches the bid or ask table. -/
theorem populate_preserves_books {fetch : String → HttpResult} {ob ob1 : OrderBook}
    {_id : String} (h : OrderBook._populate_symbol_mappings fetch ob _id = .ok ob1) :
    ob1.orderbook_bids = ob.orderbook_bids ∧ ob1.orderbook_asks = ob.orderbook_asks := by
  unfold OrderBook._populate_symbol_mappings at h
  dsimp only at h
  repeat' split at h
  all_goals first
    | (obtain rfl := Except.ok.inj h
       exact ⟨rfl, rfl⟩)
    | exact absurd h (by simp)

theorem init_pair_keysEq {fetch : String → HttpResult} {ob ob1 : OrderBook}
    {_id : String} {force : Bool} (h : keysEq ob)
    (hinit : OrderBook._init_pair fetch ob _id force = .ok ob1) : keysEq ob1 := by
  unfold OrderBook._init_pair at hinit
  split at hinit
  · split at hinit
    case h_1 e heq => exact absurd hinit (by simp)
    case h_2 obP heq =>
      obtain rfl := Except.ok.inj hinit
      have hbooks : obP.orderbook_bids = ob.orderbook_bids ∧
          obP.orderbook_asks = ob.orderbook_asks := by
        split at heq
        · exact populate_preserves_books heq
        · obtain rfl := Except.ok.inj heq
          exact ⟨rfl, rfl⟩
      unfold keysEq
      dsimp only
      rw [map_fst_dictSet, map_fst_dictSet, hbooks.1, hbooks.2, h]
  · obtain rfl := Except.ok.inj hinit
    exact h

theorem add_keysEq {fetch : String → HttpResult} {ob : OrderBook}
    {exchange_name : String} (pairs : List String) (h : keysEq ob) :
    keysEq (OrderBook.add fetch ob exchange_name pairs).1 := by
  induction pairs generalizing ob with
  | nil => exact h
  | cons p rest ih =>
    unfold OrderBook.add
    cases hi : OrderBook._init_pair fetch ob (mkId exchange_name p) false with
    | error e => exact h
    | ok ob1 => exact ih (init_pair_keysEq h hi)

set_option maxHeartbeats 1600000 in
/-- Processing one response preserves the key lists of both tables, provided
its id is already a bid-table key. -/
theorem updateOne_keys (fetch : String → HttpResult) (ob : OrderBook) (_id : String)
    (res : Option JVal) (h : keysEq ob)
    (hm : _id ∈ ob.orderbook_bids.map Prod.fst) :
    (OrderBook.updateOne fetch ob _id res).1.orderbook_bids.map Prod.fst =
      ob.orderbook_bids.map Prod.fst ∧
    (OrderBook.updateOne fetch ob _id res).1.orderbook_asks.map Prod.fst =
      ob.orderbook_asks.map Prod.fst := by
  have hma : _id ∈ ob.orderbook_asks.map Prod.fst := h ▸ hm
  unfold OrderBook.updateOne OrderBook.okxBranch OrderBook.kucoinBranch
    OrderBook.rawBidsAsksBranch OrderBook.bybitBranch OrderBook.krakenBranch
  simp only [init_pair_force_eq]
  repeat' split
  all_goals constructor
  all_goals
    simp_all [OrderBook._set_bid_price_and_volume, OrderBook._set_ask_price_and_volume,
      map_fst_dictSet, hm, hma]

theorem updateLoop_keys (fetch : String → HttpResult)
    (entries : List (String × Option JVal)) (ob : OrderBook) (h : keysEq ob)
    (hm : ∀ e ∈ entries, e.1 ∈ ob.orderbook_bids.map Prod.fst) :
    (OrderBook.updateLoop fetch ob entries).1.orderbook_bids.map Prod.fst =
      ob.orderbook_bids.map Prod.fst ∧
    (OrderBook.updateLoop fetch ob entries).1.orderbook_asks.map Prod.fst =
      ob.orderbook_asks.map Prod.fst := by
  induction entries generalizing ob with
  | nil => exact ⟨rfl, rfl⟩
  | cons e rest ih =>
    obtain ⟨e1, e2⟩ := e
    have hone := updateOne_keys fetch ob e1 e2 h (hm (e1, e2) (List.mem_cons_self _ _))
    unfold OrderBook.updateLoop
    cases hu : OrderBook.updateOne fetch ob e1 e2 with
    | mk ob1 eopt =>
      rw [hu] at hone
      cases eopt with
      | some e => exact hone
      | none =>
        dsimp only
        dsimp only at hone
        have h1 : keysEq ob1 := by
          unfold keysEq
          rw [hone.1, hone.2]
          exact h
        have hm1 : ∀ x ∈ rest, x.1 ∈ ob1.orderbook_bids.map Prod.fst := by
          intro x hx
          rw [hone.1]
          exact hm x (List.mem_cons_of_mem _ hx)
        have := ih ob1 h1 hm1
        exact ⟨this.1.trans hone.1, this.2.trans hone.2⟩

theorem update_keysEq (fetch : String → HttpResult) (rs : List (Option JVal))
    (ob : OrderBook) (h : keysEq ob) : keysEq (OrderBook._update fetch ob rs).1 := by
  unfold OrderBook._update
  by_cases hr : ob.running = true
  · simp only [hr, Bool.not_true, Bool.false_eq_true, if_false]
    cases hb : OrderBook.buildUrls ob (ob.orderbook_bids.map Prod.fst) with
    | error e => exact h
    | ok urls =>
      dsimp only
      have hm : ∀ e ∈ (ob.orderbook_bids.map Prod.fst).zip rs,
          e.1 ∈ ob.orderbook_bids.map Prod.fst := by
        intro e he
        obtain ⟨a, b⟩ := e
        exact (List.of_mem_zip he).1
      have := updateLoop_keys fetch _ ob h hm
      unfold keysEq
      rw [this.1, this.2]
      exact h
  · simp only [Bool.not_eq_true] at hr
    simp only [hr, Bool.not_false, if_true]
    exact h

/-- Claim C8: starting from a freshly constructed store, any sequence of
`add`, `delete`, `start`, `stop` and refresh-cycle updates (with arbitrary
per-key transport outcomes and collaborator behaviour) leaves the bid table
and the ask table with exactly the same key set. -/
theorem bid_ask_join_invariant (coins : List Coin) (ops : List Op) :
    ∀ k, (k ∈ (ops.foldl applyOp (OrderBook.init coins)).orderbook_bids.map Prod.fst ↔
          k ∈ (ops.foldl applyOp (OrderBook.init coins)).orderbook_asks.map Prod.fst) := by
  have main : ∀ (l : List Op) (ob : OrderBook), keysEq ob → keysEq (l.foldl applyOp ob) := by
    intro l
    induction l with
    | nil => exact fun ob h => h
    | cons op rest ih =>
      intro ob h
      refine ih _ ?_
      cases op with
      | add fetch en ps => exact add_keysEq ps h
      | delete en p =>
        dsimp only [applyOp]
        unfold keysEq OrderBook.delete
        dsimp only
        rw [map_fst_dictPop, map_fst_dictPop, h]
      | start => exact h
      | stop => rfl
      | update fetch rsp => exact update_keysEq fetch rsp ob h
  intro k
  have hfin : keysEq (ops.foldl applyOp (OrderBook.init coins)) := main ops _ rfl
  rw [keysEq] at hfin
  rw [hfin]

/-- Claim C10: `delete` and `stop` do not touch the symbol-mapping table, so
`get_exchange_symbol` answers exactly as before them. -/
theorem delete_stop_preserve_mappings (ob : OrderBook) (e p f q : String) :
    (ob.delete e p).symbols_mappings = ob.symbols_mappings ∧
    ob.stop.symbols_mappings = ob.symbols_mappings ∧
    (ob.delete e p).get_exchange_symbol f q = ob.get_exchange_symbol f q ∧
    ob.stop.get_exchange_symbol f q = ob.get_exchange_symbol f q :=
  ⟨rfl, rfl, rfl, rfl⟩

end Topbid
